import Mathlib

/-!
Verification development for the synchronization and versioning core of the
barcode-identifier-api repository.  The definitions below are a shallow
embedding of the Python source under barcode_blastn/: each Lean definition
names the Python function or class it embeds and follows its control flow.
Filesystem manipulation and network traffic are out of scope of the data
model; network results enter as explicit oracle parameters, and the exit
status of the external build tool enters as an explicit Boolean parameter.
-/

namespace Barrel

/-- Embedding of the model `NuccoreSequence` (barcode_blastn/models.py).
Only the fields read by the controller code under verification are kept:
the identity pair accession_number and version, the sequence payload, the
metadata fields compared by calculate_update_summary, and the eight
taxonomic rank references (None when unset, as in the fetched data dict of
parse_gb.py).  The owner_database foreign key is represented by membership
in a BlastDb record list. -/
structure NuccoreSequence where
  accession_number : String
  version : String
  dna_sequence : String
  definition : String := ""
  organism : String := ""
  organelle : String := ""
  isolate : String := ""
  country : String := ""
  specimen_voucher : String := ""
  type_material : String := ""
  lat_lon : String := ""
  taxon_superkingdom : Option String := none
  taxon_kingdom : Option String := none
  taxon_phylum : Option String := none
  taxon_class : Option String := none
  taxon_order : Option String := none
  taxon_family : Option String := none
  taxon_genus : Option String := none
  taxon_species : Option String := none
deriving DecidableEq

/-- Embedding of the model `BlastDb` (barcode_blastn/models.py): the version
triple, the locked flag, the owned record set (the reverse side of the
owner_database foreign key) and the pending _change_reason string.  The
Library foreign key is represented by passing the list of the sibling
BlastDb rows of the same library where the code queries it. -/
structure BlastDb where
  genbank_version : Int
  major_version : Int
  minor_version : Int
  locked : Bool
  records : List NuccoreSequence
  change_reason : String := ""
deriving DecidableEq

/-- Embedding of the class `SequenceUpdateSummary`
(blastdb_controller.py, lines 12-17).  In the Python source the five
buckets are class attributes, so every instance shares one set of mutable
lists for the whole process; the shared ambient contents are threaded
through the functions below as an explicit initial summary argument. -/
structure SequenceUpdateSummary where
  no_change : List String := []
  accession_version_changed : List String := []
  metadata_changed : List String := []
  deleted : List String := []
  added : List String := []
deriving DecidableEq

/-- The bucket state of a freshly started Python process, before any call
has appended to the shared class-level lists. -/
def emptySummary : SequenceUpdateSummary := {}

/-- The five buckets of a summary laid out as one list, in the order
added, deleted, accession_version_changed, metadata_changed, no_change. -/
def allBuckets (s : SequenceUpdateSummary) : List String :=
  s.added ++ s.deleted ++ s.accession_version_changed ++ s.metadata_changed ++ s.no_change

/-- Embedding of the dictionaries an_to_last / an_to_current built in
calculate_update_summary (lines 245-251): a Python dict keyed by
accession_number, where a later record with the same key overwrites an
earlier one.  Returns the last record of the list whose accession_number
equals a, if any. -/
def an_to (l : List NuccoreSequence) (a : String) : Option NuccoreSequence :=
  l.foldl (fun acc s => if s.accession_number == a then some s else acc) none

/-- The fixed fields_to_check metadata comparison of
calculate_update_summary (line 238): true when any of the nine listed
fields differs between the two records. -/
def metadataDiffers (cur inst : NuccoreSequence) : Bool :=
  cur.definition != inst.definition ||
  cur.dna_sequence != inst.dna_sequence ||
  cur.organism != inst.organism ||
  cur.organelle != inst.organelle ||
  cur.isolate != inst.isolate ||
  cur.country != inst.country ||
  cur.specimen_voucher != inst.specimen_voucher ||
  cur.type_material != inst.type_material ||
  cur.lat_lon != inst.lat_lon

/-- One iteration of the second loop of calculate_update_summary
(lines 255-271), classifying one current record against the an_to_last
dictionary and appending its accession to the corresponding bucket. -/
def summaryStep (last : List NuccoreSequence) (summ : SequenceUpdateSummary)
    (cur : NuccoreSequence) : SequenceUpdateSummary :=
  match an_to last cur.accession_number with
  | none => { summ with added := summ.added ++ [cur.accession_number] }
  | some inst =>
    if cur.version != inst.version || cur.dna_sequence != inst.dna_sequence then
      { summ with accession_version_changed :=
          summ.accession_version_changed ++ [cur.accession_number] }
    else if metadataDiffers cur inst then
      { summ with metadata_changed := summ.metadata_changed ++ [inst.accession_number] }
    else
      { summ with no_change := summ.no_change ++ [inst.accession_number] }

/-- Embedding of calculate_update_summary (blastdb_controller.py,
lines 232-272).  The ambient argument is the content the five shared
class-level buckets already hold when the call starts (emptySummary on the
first call of a process); the function appends to those buckets exactly as
the source loops do: first the deleted pass over the last record set, then
the classification pass over the current record set. -/
def calculate_update_summary (ambient : SequenceUpdateSummary)
    (last current : List NuccoreSequence) : SequenceUpdateSummary :=
  let withDeleted :=
    { ambient with deleted := ambient.deleted ++
        ((last.filter (fun s => (an_to current s.accession_number).isNone)).map
          (fun s => s.accession_number)) }
  current.foldl (summaryStep last) withDeleted

/-- The version assignment ladder inlined in save_blastdb
(blastdb_controller.py, lines 90-97), applied when a previously published
version lastPublished exists: content changes bump the genbank component,
metadata-only changes bump the major component, and otherwise the minor
component is bumped. -/
def version_nums_for (lastPublished : BlastDb) (summary : SequenceUpdateSummary) :
    Int × Int × Int :=
  if summary.deleted.length > 0 || summary.added.length > 0 ||
      summary.accession_version_changed.length > 0 then
    (lastPublished.genbank_version + 1, 0, 0)
  else if summary.metadata_changed.length > 0 then
    (lastPublished.genbank_version, lastPublished.major_version + 1, 0)
  else
    (lastPublished.genbank_version, lastPublished.major_version,
      lastPublished.minor_version + 1)

/-- True when the version triple of a is lexicographically at most that
of b, the Meta ordering of BlastDb (models.py, line 182). -/
def versionLe (a b : BlastDb) : Bool :=
  a.genbank_version < b.genbank_version ||
  (a.genbank_version == b.genbank_version &&
    (a.major_version < b.major_version ||
      (a.major_version == b.major_version && a.minor_version ≤ b.minor_version)))

/-- Embedding of BlastDb.objects.latest (models.py, lines 124-126):
filter the library rows to the locked ones, order them by the version
triple, and take the last.  On the list model this is the rightmost row
whose version triple is maximal among the locked rows. -/
def latest (dbs : List BlastDb) : Option BlastDb :=
  dbs.foldl
    (fun acc d =>
      if d.locked then
        match acc with
        | none => some d
        | some b => if versionLe b d then some d else some b
      else acc)
    none

/-- Embedding of save_blastdb (blastdb_controller.py, lines 71-147).
The dbs argument is the list of BlastDb rows of the library of obj, used
by the BlastDb.objects.latest query; ambient is the shared class-level
bucket state passed into calculate_update_summary; makeblastdbOk is the
exit status of the external makeblastdb invocation at line 134, whose
result the source discards (os.system return value unused).  The fasta
file write and directory handling of lines 99-128 touch only the
filesystem and are outside the data model.  Note the source performs no
check of obj.locked in this function. -/
def save_blastdb (dbs : List BlastDb) (obj : BlastDb)
    (ambient : SequenceUpdateSummary) (makeblastdbOk : Bool)
    (perform_lock : Bool) : BlastDb :=
  if perform_lock then
    let lastPublished := latest dbs
    let version_nums : Int × Int × Int :=
      match lastPublished with
      | none => (1, 0, 0)
      | some lp => version_nums_for lp (calculate_update_summary ambient lp.records obj.records)
    let new_change_reason :=
      if obj.change_reason.length > 0 then "Locked database" ++ ", " ++ obj.change_reason
      else "Locked database"
    { obj with
        genbank_version := version_nums.1
        major_version := version_nums.2.1
        minor_version := version_nums.2.2
        locked := true
        change_reason := new_change_reason }
  else obj

/-- The errors raised by the collection mutator functions of
blastdb_controller.py: DatabaseLocked (line 344), AccessionsAlreadyExist
(line 328), AccessionsNotFound (line 336), a propagated fetch failure from
retrieve_gb, and the uncaught Python KeyError reachable in
update_sequences_in_database when fetched data misses a requested
accession. -/
inductive FetchError where
  | valueError : FetchError
  | accessionLimitExceeded (curr : Nat ⊕ List String) (max : Nat) : FetchError
  | genBankConnectionError (queried : List String) (term : String) : FetchError
  | insufficientAccessionData (missing : List String) (term : String) : FetchError
deriving DecidableEq

inductive MutError where
  | databaseLocked : MutError
  | accessionsAlreadyExist (accession_numbers : List String) : MutError
  | accessionsNotFound (accession_numbers : List String) : MutError
  | fetchFailed (e : FetchError) : MutError
  | keyError : MutError
deriving DecidableEq

/-- Embedding of delete_sequences_in_database (blastdb_controller.py,
lines 346-365): reject a locked database, deduplicate the requested
numbers, delete the matching records and return the count deleted.  The
change-history logging of lines 361-363 only mutates audit strings and is
omitted. -/
def delete_sequences_in_database (db : BlastDb) (desired_nums : List String) :
    Except MutError (BlastDb × Nat) :=
  if db.locked then .error .databaseLocked
  else
    let nums := desired_nums.eraseDups
    let to_delete := db.records.filter (fun s => nums.contains s.accession_number)
    let remaining := db.records.filter (fun s => !(nums.contains s.accession_number))
    .ok ({ db with records := remaining }, to_delete.length)

/-- Embedding of update_sequences_in_database (blastdb_controller.py,
lines 367-413).  The fetch argument stands for retrieve_gb, the network
oracle; its result list plays the role of genbank_data.  An accession of
the existing queryset absent from the fetched data would raise KeyError at
line 405, modelled by the keyError branch.  The updated timestamp is not
modelled. -/
def update_sequences_in_database
    (fetch : List String → Option String → Except FetchError (List NuccoreSequence))
    (db : BlastDb) (desired_numbers : List String) :
    Except MutError (BlastDb × List NuccoreSequence) :=
  if db.locked then .error .databaseLocked
  else
    let nums := desired_numbers.eraseDups
    let existing :=
      if nums.length > 0 then db.records.filter (fun s => nums.contains s.accession_number)
      else db.records
    if nums.length > 0 && existing.length < nums.length then
      .error (.accessionsNotFound
        (nums.filter (fun d => !((existing.map (fun e => e.accession_number)).contains d))))
    else
      match fetch nums none with
      | .error e => .error (.fetchFailed e)
      | .ok genbank_data =>
        if existing.any (fun r => (an_to genbank_data r.accession_number).isNone) then
          .error .keyError
        else
          let upd := fun (r : NuccoreSequence) => (an_to genbank_data r.accession_number).getD r
          .ok ({ db with records :=
                  db.records.map (fun r =>
                    if nums.length == 0 || nums.contains r.accession_number then upd r else r) },
               existing.map upd)

/-- The case-insensitive ambiguous-base count of
filter_sequences_in_database (line 439): the source computes
Length(Upper(seq)) - Length(Replace(Upper(seq), Value of N)), which is the
number of characters whose uppercase form is N. -/
def ambiguousBases (s : String) : Nat :=
  (s.data.filter (fun c => c.toUpper == 'N')).length

/-- The queryset OR-union used by the violations |= steps of
filter_sequences_in_database: membership in the union is membership in
either operand, without duplicating rows already present. -/
def qsUnion (a b : List NuccoreSequence) : List NuccoreSequence :=
  a ++ b.filter (fun r => !(decide (r ∈ a)))

/-- Embedding of filter_sequences_in_database (blastdb_controller.py,
lines 416-447): starting from the blacklist matches, the violation set is
widened by the length and ambiguous-base conditions when those bounds are
active (a bound of -1 leaves the condition off), the violating records are
deleted, and the list of violations is returned.  The source accepts a
require_taxonomy argument but never uses it, and performs no check of
db.locked; both facts are mirrored here.  The change-reason strings are
audit text and are omitted. -/
def filter_sequences_in_database (db : BlastDb) (min_length : Int := -1)
    (max_length : Int := -1) (max_ambiguous_bases : Int := -1)
    (blacklist : List String := []) (require_taxonomy : Bool := false) :
    BlastDb × List NuccoreSequence :=
  let objects := db.records
  let v0 := objects.filter
    (fun r => blacklist.contains r.accession_number || blacklist.contains r.version)
  let v1 :=
    if min_length > -1 then
      qsUnion v0 (objects.filter (fun r => (r.dna_sequence.length : Int) < min_length))
    else v0
  let v2 :=
    if max_length > -1 then
      qsUnion v1 (objects.filter (fun r => (r.dna_sequence.length : Int) > max_length))
    else v1
  let v3 :=
    if max_ambiguous_bases > -1 then
      qsUnion v2 (objects.filter (fun r => (ambiguousBases r.dna_sequence : Int) > max_ambiguous_bases))
    else v2
  let remaining := objects.filter (fun r => !(decide (r ∈ v3)))
  ({ db with records := remaining }, v3)

/-- True when all eight taxon rank references demanded by the
require_taxonomy branch of add_sequences_to_database (lines 508-512) are
present on the fetched record. -/
def hasFullTaxonomy (d : NuccoreSequence) : Bool :=
  d.taxon_superkingdom.isSome && d.taxon_kingdom.isSome && d.taxon_phylum.isSome &&
  d.taxon_class.isSome && d.taxon_order.isSome && d.taxon_family.isSome &&
  d.taxon_genus.isSome && d.taxon_species.isSome

/-- One iteration of the creation loop of add_sequences_to_database
(lines 482-521), folding over the fetched records while carrying the
mutable existing accession set and the to_create list.  A fetched record
is skipped when its accession is already in the set, when an active length
or ambiguous-base bound rejects it (line 503 counts only the literal
uppercase N), when require_taxonomy finds a missing rank, or when it
matches the blacklist; otherwise it is appended and its accession added to
the set. -/
def addStep (min_length max_length max_ambiguous_bases : Int)
    (blacklist : List String) (require_taxonomy : Bool)
    (st : List String × List NuccoreSequence) (data : NuccoreSequence) :
    List String × List NuccoreSequence :=
  if st.1.contains data.accession_number then st
  else if min_length > -1 && (data.dna_sequence.length : Int) < min_length then st
  else if max_length > -1 && (data.dna_sequence.length : Int) > max_length then st
  else if max_ambiguous_bases > -1 &&
      ((data.dna_sequence.data.filter (fun c => c == 'N')).length : Int) > max_ambiguous_bases then st
  else if require_taxonomy && !(hasFullTaxonomy data) then st
  else if blacklist.contains data.accession_number || blacklist.contains data.version then st
  else (st.1 ++ [data.accession_number], st.2 ++ [data])

/-- Embedding of add_sequences_to_database (blastdb_controller.py,
lines 449-530): the locked guard, the empty-request early return, the
conflict check of the explicitly requested numbers against the existing
accessions of the database (raised before the fetch), the fetch through
the retrieve_gb oracle, and the creation loop.  save_taxonomy is a network
enrichment of the fetched dictionaries and is modelled as already applied
inside the fetch oracle result; the change-history logging is omitted. -/
def add_sequences_to_database
    (fetch : List String → Option String → Except FetchError (List NuccoreSequence))
    (db : BlastDb) (desired_numbers : List String := [])
    (search_term : Option String := none) (min_length : Int := -1)
    (max_length : Int := -1) (max_ambiguous_bases : Int := -1)
    (blacklist : List String := []) (require_taxonomy : Bool := false) :
    Except MutError (BlastDb × List NuccoreSequence) :=
  if db.locked then .error .databaseLocked
  else if desired_numbers.length == 0 && search_term.isNone then .ok (db, [])
  else
    let desired := desired_numbers.eraseDups
    let existing := db.records.map (fun s => s.accession_number)
    let conflicts := desired.filter (fun e => existing.contains e)
    if conflicts.length > 0 then .error (.accessionsAlreadyExist conflicts)
    else
      match fetch desired search_term with
      | .error e => .error (.fetchFailed e)
      | .ok genbank_data =>
        let folded := genbank_data.foldl
          (addStep min_length max_length max_ambiguous_bases blacklist require_taxonomy)
          (existing, [])
        let created_sequences := folded.2
        .ok ({ db with records := db.records ++ created_sequences }, created_sequences)

/-- True when the character list pat occurs at the head of s. -/
def charsMatchAt : List Char → List Char → Bool
  | [], _ => true
  | _ :: _, [] => false
  | p :: ps, c :: cs => p == c && charsMatchAt ps cs

/-- True when the character list pat occurs contiguously anywhere in s,
the meaning of the Python in operator on strings. -/
def hasSubChars (pat : List Char) : List Char → Bool
  | [] => charsMatchAt pat []
  | c :: cs => charsMatchAt pat (c :: cs) || hasSubChars pat cs

/-- The lowercased character data of a string, the Python str.lower of the
ASCII notes text. -/
def lowerChars (s : String) : List Char :=
  s.data.map Char.toLower

/-- True when the lowercased notes contain paratype or holotype
(parse_gb.py, line 134). -/
def noteHasTypeKeyword (ns : String) : Bool :=
  hasSubChars "paratype".data (lowerChars ns) || hasSubChars "holotype".data (lowerChars ns)

/-- True when the lowercased notes start with the six characters of the
string type colon space (parse_gb.py, line 135). -/
def typeColonAtHead (ns : String) : Bool :=
  charsMatchAt "type: ".data (lowerChars ns)

/-- Embedding of the type-material fallback of parse_gb_handle
(parse_gb.py, lines 124-142).  tm is the value the qualifier extraction
already assigned to type_material (the first explicit qualifier value, or
the empty string when the qualifier is absent); note is the newline-joined
note qualifier text when the source feature has one.  When tm is empty and
notes exist, the finally block always stores the notes text into
type_material, stripped of its first six characters exactly when the notes
contain paratype or holotype case-insensitively, start with the type colon
space marker case-insensitively, and are longer than six characters. -/
def apply_type_material_note (tm : String) (note : Option String) : String :=
  match note with
  | none => tm
  | some ns =>
    if tm == "" then
      if noteHasTypeKeyword ns then
        if typeColonAtHead ns && decide (ns.length > 6) then String.mk (ns.data.drop 6)
        else ns
      else ns
    else tm

/-- The hard ceiling MAX_ACCESSIONS of parse_gb.py, line 18. -/
def MAX_ACCESSIONS : Nat := 1500

/-- The per-request batch size ACCESSIONS_PER_REQUEST of parse_gb.py,
line 17. -/
def ACCESSIONS_PER_REQUEST : Nat := 300

/-- The paginated ESearch result retrieval loop of retrieve_gb
(parse_gb.py, lines 256-260): fetch pages of ACCESSIONS_PER_REQUEST
records while the remaining count is positive.  fetchPage is the network
oracle taking retstart and retmax. -/
def searchPages (fetchPage : Nat → Nat → Except FetchError (List NuccoreSequence)) :
    Nat → Nat → Except FetchError (List NuccoreSequence)
  | 0, _ => .ok []
  | count + 1, retstart => do
    let page ← fetchPage retstart ACCESSIONS_PER_REQUEST
    let rest ← searchPages fetchPage ((count + 1) - ACCESSIONS_PER_REQUEST)
      (retstart + ACCESSIONS_PER_REQUEST)
    pure (page ++ rest)
  termination_by count _ => count
  decreasing_by simp [ACCESSIONS_PER_REQUEST]; omega

/-- The accession batching loop of retrieve_gb (parse_gb.py,
lines 263-274): pop ACCESSIONS_PER_REQUEST numbers at a time and send one
request per batch through the fetchBatch oracle. -/
def fetchBatches (fetchBatch : List String → Except FetchError (List NuccoreSequence)) :
    List String → Except FetchError (List NuccoreSequence)
  | [] => .ok []
  | x :: xs => do
    let batch ← fetchBatch ((x :: xs).take ACCESSIONS_PER_REQUEST)
    let rest ← fetchBatches fetchBatch ((x :: xs).drop ACCESSIONS_PER_REQUEST)
    pure (batch ++ rest)
  termination_by l => l.length
  decreasing_by simp [ACCESSIONS_PER_REQUEST, List.length_drop]; omega

/-- Embedding of retrieve_gb (parse_gb.py, lines 203-276).  The three
oracle arguments stand for the network: esearchCount is the ESearch count
query for a search term, fetchPage the paginated ESearch result fetch, and
fetchBatch one send_gb_request call on a batch of accession numbers.  The
guards of lines 219-223 run before any oracle is consulted; note the
ceiling check of line 222 tests the raw argument list before
deduplication, and line 223 passes the accession list itself as the
curr_accessions payload of AccessionLimitExceeded, while the search branch
of line 252 passes the integer count. -/
def retrieve_gb (esearchCount : String → Except FetchError Nat)
    (fetchPage : Nat → Nat → Except FetchError (List NuccoreSequence))
    (fetchBatch : List String → Except FetchError (List NuccoreSequence))
    (accession_numbers : List String) (term : Option String := none) :
    Except FetchError (List NuccoreSequence) :=
  if accession_numbers.length == 0 && term.isNone then .error .valueError
  else if accession_numbers.length > MAX_ACCESSIONS then
    .error (.accessionLimitExceeded (.inr accession_numbers) MAX_ACCESSIONS)
  else
    let desired := accession_numbers.eraseDups
    do
      let searchData ←
        match term with
        | none => pure []
        | some t =>
          let t := t.trim
          if t.length > 0 then do
            let count ← esearchCount t
            if count > MAX_ACCESSIONS then
              throw (.accessionLimitExceeded (.inl count) MAX_ACCESSIONS)
            else searchPages fetchPage count 0
          else pure []
      let batchData ← fetchBatches fetchBatch desired
      pure (searchData ++ batchData)

/-- Classification flag: the current record is new, the added branch of
calculate_update_summary (line 256). -/
def addFlag (last : List NuccoreSequence) (c : NuccoreSequence) : Bool :=
  (an_to last c.accession_number).isNone

/-- Classification flag: a record of the last set is absent from the
current set, the deleted branch (line 252). -/
def delFlag (current : List NuccoreSequence) (s : NuccoreSequence) : Bool :=
  (an_to current s.accession_number).isNone

/-- Classification flag: the version tag or the sequence payload differs
from the matching last record (line 260). -/
def vcFlag (last : List NuccoreSequence) (c : NuccoreSequence) : Bool :=
  match an_to last c.accession_number with
  | none => false
  | some inst => c.version != inst.version || c.dna_sequence != inst.dna_sequence

/-- Classification flag: version and payload agree with the matching last
record but a checked metadata field differs (lines 263-269). -/
def mcFlag (last : List NuccoreSequence) (c : NuccoreSequence) : Bool :=
  match an_to last c.accession_number with
  | none => false
  | some inst =>
    !(c.version != inst.version || c.dna_sequence != inst.dna_sequence) &&
      metadataDiffers c inst

/-- Classification flag: the record matches its last counterpart on every
compared field (line 271). -/
def ncFlag (last : List NuccoreSequence) (c : NuccoreSequence) : Bool :=
  match an_to last c.accession_number with
  | none => false
  | some inst =>
    !(c.version != inst.version || c.dna_sequence != inst.dna_sequence) &&
      !(metadataDiffers c inst)

/-- A concrete well-formed record used in concrete evaluations. -/
def recA : NuccoreSequence :=
  { accession_number := "A1", version := "A1.1", dna_sequence := "ACGT" }

/-- A second concrete record with a distinct accession. -/
def recB : NuccoreSequence :=
  { accession_number := "B1", version := "B1.1", dna_sequence := "ACGA" }

/-- A concrete record whose payload is five bases long, below a minimum
length bound of ten. -/
def recShort : NuccoreSequence :=
  { accession_number := "S1", version := "S1.1", dna_sequence := "ACGTA" }

/-- A concrete record carrying no taxonomy references at all: every one of
the eight rank fields is unset. -/
def recNoTax : NuccoreSequence :=
  { accession_number := "T1", version := "T1.1", dna_sequence := "ACGTACGTACGT" }

/-- A concrete already-locked published snapshot at version one dot zero
dot zero with an empty record set. -/
def dbLockedEmpty : BlastDb :=
  { genbank_version := 1, major_version := 0, minor_version := 0,
    locked := true, records := [] }

/-- A concrete unlocked working snapshot. -/
def dbUnlockedEmpty : BlastDb :=
  { genbank_version := 0, major_version := 0, minor_version := 0,
    locked := false, records := [recA] }

/-- A concrete locked snapshot holding one short record, used to observe
the behaviour of the filter operation on a locked snapshot. -/
def dbLockedShort : BlastDb :=
  { genbank_version := 1, major_version := 0, minor_version := 0,
    locked := true, records := [recShort] }

/-- A concrete unlocked snapshot holding one record without taxonomy. -/
def dbNoTax : BlastDb :=
  { genbank_version := 0, major_version := 0, minor_version := 0,
    locked := false, records := [recNoTax] }

/-- A concrete published snapshot at version one dot one dot zero, used to
exhibit the component decrease of a genbank-version bump. -/
def dbPublishedOneOne : BlastDb :=
  { genbank_version := 1, major_version := 1, minor_version := 0,
    locked := true, records := [] }

/-- A summary whose only non-empty bucket is added. -/
def summaryOnlyAdded : SequenceUpdateSummary := { added := ["X1"] }

/-- A list of 1501 pairwise distinct accession strings: the string of
index i consists of i repetitions of one letter, so all lengths differ. -/
def bigAccessionList : List String :=
  (List.range 1501).map (fun i => String.mk (List.replicate i 'a'))

lemma foldl_an_general (a : String) (l : List NuccoreSequence)
    (init : Option NuccoreSequence) :
    l.foldl (fun acc s => if s.accession_number == a then some s else acc) init
      = (l.reverse.find? (fun s => s.accession_number == a)).or init := by
  induction l generalizing init with
  | nil => simp
  | cons c cs ih =>
    rw [List.foldl_cons, ih]
    cases hc : c.accession_number == a <;>
      simp [hc, Option.or_assoc, List.find?]

lemma an_to_eq_find (l : List NuccoreSequence) (a : String) :
    an_to l a = l.reverse.find? (fun s => s.accession_number == a) := by
  rw [an_to, foldl_an_general]
  simp

lemma an_to_eq_none (l : List NuccoreSequence) (a : String) :
    an_to l a = none ↔ ∀ s ∈ l, s.accession_number ≠ a := by
  rw [an_to_eq_find]
  simp

lemma an_to_eq_none_iff_not_mem (l : List NuccoreSequence) (a : String) :
    an_to l a = none ↔ a ∉ l.map (fun s => s.accession_number) := by
  rw [an_to_eq_none]
  simp only [List.mem_map]
  constructor
  · rintro h ⟨s, hs, rfl⟩
    exact h s hs rfl
  · intro h s hs hsa
    exact h ⟨s, hs, hsa⟩

lemma an_to_some_spec {l : List NuccoreSequence} {a : String} {i : NuccoreSequence}
    (h : an_to l a = some i) : i ∈ l ∧ i.accession_number = a := by
  rw [an_to_eq_find] at h
  refine ⟨List.mem_reverse.mp (List.mem_of_find?_eq_some h), ?_⟩
  have := List.find?_some h
  simpa using this

lemma an_to_self {l : List NuccoreSequence}
    (hnd : (l.map (fun s => s.accession_number)).Nodup) {i : NuccoreSequence}
    (hi : i ∈ l) : an_to l i.accession_number = some i := by
  rcases h : an_to l i.accession_number with _ | j
  · rw [an_to_eq_none] at h
    exact absurd rfl (h i hi)
  · obtain ⟨hjl, hja⟩ := an_to_some_spec h
    have := List.inj_on_of_nodup_map hnd hjl hi hja
    rw [this]

lemma foldl_summaryStep_deleted (last : List NuccoreSequence)
    (current : List NuccoreSequence) (init : SequenceUpdateSummary) :
    (current.foldl (summaryStep last) init).deleted = init.deleted := by
  induction current generalizing init with
  | nil => rfl
  | cons c cs ih =>
    rw [List.foldl_cons, ih]
    rcases h : an_to last c.accession_number with _ | inst
    · simp [summaryStep, h]
    · cases hvc : (c.version != inst.version || c.dna_sequence != inst.dna_sequence)
      · cases hmd : metadataDiffers c inst
        · simp [summaryStep, h, hvc, hmd]
        · simp [summaryStep, h, hvc, hmd]
      · simp [summaryStep, h, hvc]

lemma foldl_summaryStep_added (last : List NuccoreSequence)
    (current : List NuccoreSequence) (init : SequenceUpdateSummary) :
    (current.foldl (summaryStep last) init).added
      = init.added ++ (current.filter (addFlag last)).map (fun s => s.accession_number) := by
  induction current generalizing init with
  | nil => simp
  | cons c cs ih =>
    rw [List.foldl_cons, ih]
    rcases h : an_to last c.accession_number with _ | inst
    · have hf : addFlag last c = true := by simp [addFlag, h]
      simp [summaryStep, h, List.filter_cons, hf]
    · have hf : addFlag last c = false := by simp [addFlag, h]
      cases hvc : (c.version != inst.version || c.dna_sequence != inst.dna_sequence)
      · cases hmd : metadataDiffers c inst
        · simp [summaryStep, h, hvc, hmd, List.filter_cons, hf]
        · simp [summaryStep, h, hvc, hmd, List.filter_cons, hf]
      · simp [summaryStep, h, hvc, List.filter_cons, hf]

lemma foldl_summaryStep_avc (last : List NuccoreSequence)
    (current : List NuccoreSequence) (init : SequenceUpdateSummary) :
    (current.foldl (summaryStep last) init).accession_version_changed
      = init.accession_version_changed ++
          (current.filter (vcFlag last)).map (fun s => s.accession_number) := by
  induction current generalizing init with
  | nil => simp
  | cons c cs ih =>
    rw [List.foldl_cons, ih]
    rcases h : an_to last c.accession_number with _ | inst
    · have hf : vcFlag last c = false := by simp [vcFlag, h]
      simp [summaryStep, h, List.filter_cons, hf]
    · cases hvc : (c.version != inst.version || c.dna_sequence != inst.dna_sequence)
      · have hf : vcFlag last c = false := by simp [vcFlag, h, hvc]
        cases hmd : metadataDiffers c inst
        · simp [summaryStep, h, hvc, hmd, List.filter_cons, hf]
        · simp [summaryStep, h, hvc, hmd, List.filter_cons, hf]
      · have hf : vcFlag last c = true := by simp [vcFlag, h, hvc]
        simp [summaryStep, h, hvc, List.filter_cons, hf]

lemma foldl_summaryStep_mc (last : List NuccoreSequence)
    (current : List NuccoreSequence) (init : SequenceUpdateSummary) :
    (current.foldl (summaryStep last) init).metadata_changed
      = init.metadata_changed ++
          (current.filter (mcFlag last)).map (fun s => s.accession_number) := by
  induction current generalizing init with
  | nil => simp
  | cons c cs ih =>
    rw [List.foldl_cons, ih]
    rcases h : an_to last c.accession_number with _ | inst
    · have hf : mcFlag last c = false := by simp [mcFlag, h]
      simp [summaryStep, h, List.filter_cons, hf]
    · have hacc : inst.accession_number = c.accession_number := (an_to_some_spec h).2
      cases hvc : (c.version != inst.version || c.dna_sequence != inst.dna_sequence)
      · cases hmd : metadataDiffers c inst
        · have hf : mcFlag last c = false := by simp [mcFlag, h, hvc, hmd]
          simp [summaryStep, h, hvc, hmd, List.filter_cons, hf]
        · have hf : mcFlag last c = true := by simp [mcFlag, h, hvc, hmd]
          simp [summaryStep, h, hvc, hmd, List.filter_cons, hf, hacc]
      · have hf : mcFlag last c = false := by simp [mcFlag, h, hvc]
        simp [summaryStep, h, hvc, List.filter_cons, hf]

lemma foldl_summaryStep_nc (last : List NuccoreSequence)
    (current : List NuccoreSequence) (init : SequenceUpdateSummary) :
    (current.foldl (summaryStep last) init).no_change
      = init.no_change ++
          (current.filter (ncFlag last)).map (fun s => s.accession_number) := by
  induction current generalizing init with
  | nil => simp
  | cons c cs ih =>
    rw [List.foldl_cons, ih]
    rcases h : an_to last c.accession_number with _ | inst
    · have hf : ncFlag last c = false := by simp [ncFlag, h]
      simp [summaryStep, h, List.filter_cons, hf]
    · have hacc : inst.accession_number = c.accession_number := (an_to_some_spec h).2
      cases hvc : (c.version != inst.version || c.dna_sequence != inst.dna_sequence)
      · cases hmd : metadataDiffers c inst
        · have hf : ncFlag last c = true := by simp [ncFlag, h, hvc, hmd]
          simp [summaryStep, h, hvc, hmd, List.filter_cons, hf, hacc]
        · have hf : ncFlag last c = false := by simp [ncFlag, h, hvc, hmd]
          simp [summaryStep, h, hvc, hmd, List.filter_cons, hf]
      · have hf : ncFlag last c = false := by simp [ncFlag, h, hvc]
        simp [summaryStep, h, hvc, List.filter_cons, hf]

lemma summary_added_eq (amb : SequenceUpdateSummary) (last current : List NuccoreSequence) :
    (calculate_update_summary amb last current).added
      = amb.added ++ (current.filter (addFlag last)).map (fun s => s.accession_number) := by
  unfold calculate_update_summary
  rw [foldl_summaryStep_added]

lemma summary_avc_eq (amb : SequenceUpdateSummary) (last current : List NuccoreSequence) :
    (calculate_update_summary amb last current).accession_version_changed
      = amb.accession_version_changed ++
          (current.filter (vcFlag last)).map (fun s => s.accession_number) := by
  unfold calculate_update_summary
  rw [foldl_summaryStep_avc]

lemma summary_mc_eq (amb : SequenceUpdateSummary) (last current : List NuccoreSequence) :
    (calculate_update_summary amb last current).metadata_changed
      = amb.metadata_changed ++
          (current.filter (mcFlag last)).map (fun s => s.accession_number) := by
  unfold calculate_update_summary
  rw [foldl_summaryStep_mc]

lemma summary_nc_eq (amb : SequenceUpdateSummary) (last current : List NuccoreSequence) :
    (calculate_update_summary amb last current).no_change
      = amb.no_change ++
          (current.filter (ncFlag last)).map (fun s => s.accession_number) := by
  unfold calculate_update_summary
  rw [foldl_summaryStep_nc]

lemma summary_deleted_eq (amb : SequenceUpdateSummary) (last current : List NuccoreSequence) :
    (calculate_update_summary amb last current).deleted
      = amb.deleted ++ (last.filter (delFlag current)).map (fun s => s.accession_number) := by
  unfold calculate_update_summary
  rw [foldl_summaryStep_deleted]
  rfl

lemma flag_exhaustive (last : List NuccoreSequence) (c : NuccoreSequence) :
    addFlag last c || vcFlag last c || mcFlag last c || ncFlag last c := by
  simp only [addFlag, vcFlag, mcFlag, ncFlag]
  rcases h : an_to last c.accession_number with _ | inst
  · simp
  · cases hvc : (c.version != inst.version || c.dna_sequence != inst.dna_sequence) <;>
      cases hmd : metadataDiffers c inst <;> simp [hvc, hmd]

lemma vcFlag_false_of_addFlag {last : List NuccoreSequence} {c : NuccoreSequence}
    (h : addFlag last c = true) : vcFlag last c = false := by
  simp only [addFlag, Option.isNone_iff_eq_none] at h
  simp [vcFlag, h]

lemma mcFlag_false_of_addFlag {last : List NuccoreSequence} {c : NuccoreSequence}
    (h : addFlag last c = true) : mcFlag last c = false := by
  simp only [addFlag, Option.isNone_iff_eq_none] at h
  simp [mcFlag, h]

lemma ncFlag_false_of_addFlag {last : List NuccoreSequence} {c : NuccoreSequence}
    (h : addFlag last c = true) : ncFlag last c = false := by
  simp only [addFlag, Option.isNone_iff_eq_none] at h
  simp [ncFlag, h]

lemma mcFlag_false_of_vcFlag {last : List NuccoreSequence} {c : NuccoreSequence}
    (h : vcFlag last c = true) : mcFlag last c = false := by
  rcases ha : an_to last c.accession_number with _ | inst
  · simp only [vcFlag, ha] at h
    exact Bool.noConfusion h
  · simp only [vcFlag, ha] at h
    simp [mcFlag, ha, h]

lemma ncFlag_false_of_vcFlag {last : List NuccoreSequence} {c : NuccoreSequence}
    (h : vcFlag last c = true) : ncFlag last c = false := by
  rcases ha : an_to last c.accession_number with _ | inst
  · simp only [vcFlag, ha] at h
    exact Bool.noConfusion h
  · simp only [vcFlag, ha] at h
    simp [ncFlag, ha, h]

lemma ncFlag_false_of_mcFlag {last : List NuccoreSequence} {c : NuccoreSequence}
    (h : mcFlag last c = true) : ncFlag last c = false := by
  rcases ha : an_to last c.accession_number with _ | inst
  · simp only [mcFlag, ha] at h
    exact Bool.noConfusion h
  · simp only [mcFlag, ha, Bool.and_eq_true] at h
    simp [ncFlag, ha, h.1, h.2]

lemma mem_filterMap_iff (l : List NuccoreSequence) (p : NuccoreSequence → Bool) (a : String) :
    a ∈ (l.filter p).map (fun s => s.accession_number) ↔
      ∃ c, c ∈ l ∧ p c = true ∧ c.accession_number = a := by
  simp only [List.mem_map, List.mem_filter]
  tauto

lemma filterMap_sublist (l : List NuccoreSequence) (p : NuccoreSequence → Bool) :
    List.Sublist ((l.filter p).map (fun s => s.accession_number))
      (l.map (fun s => s.accession_number)) :=
  List.Sublist.map _ (List.filter_sublist l)

lemma disjoint_filterMap_excl {l : List NuccoreSequence} {p q : NuccoreSequence → Bool}
    (hnd : (l.map (fun s => s.accession_number)).Nodup)
    (hpq : ∀ c, p c = true → q c = false) :
    List.Disjoint ((l.filter p).map (fun s => s.accession_number))
      ((l.filter q).map (fun s => s.accession_number)) := by
  intro a ha hb
  obtain ⟨c1, hc1, hp1, hacc1⟩ := (mem_filterMap_iff l p a).mp ha
  obtain ⟨c2, hc2, hq2, hacc2⟩ := (mem_filterMap_iff l q a).mp hb
  have : c1 = c2 := List.inj_on_of_nodup_map hnd hc1 hc2 (hacc1.trans hacc2.symm)
  rw [this] at hp1
  rw [hpq c2 hp1] at hq2
  cases hq2

lemma mem_deleted_iff (last current : List NuccoreSequence) (a : String) :
    a ∈ (last.filter (delFlag current)).map (fun s => s.accession_number) ↔
      (a ∈ last.map (fun s => s.accession_number) ∧
        a ∉ current.map (fun s => s.accession_number)) := by
  rw [mem_filterMap_iff]
  constructor
  · rintro ⟨c, hc, hdel, rfl⟩
    refine ⟨List.mem_map.mpr ⟨c, hc, rfl⟩, ?_⟩
    rw [← an_to_eq_none_iff_not_mem]
    simpa [delFlag, Option.isNone_iff_eq_none] using hdel
  · rintro ⟨hin, hout⟩
    obtain ⟨c, hc, rfl⟩ := List.mem_map.mp hin
    refine ⟨c, hc, ?_, rfl⟩
    rw [← an_to_eq_none_iff_not_mem] at hout
    simp [delFlag, hout]

/-- C2.  The five buckets of the diff, computed by
calculate_update_summary from freshly started (empty) class-level buckets
on record sets without duplicate accessions, partition the union of the
accession identifiers of the two sets exactly: an accession appears among
the buckets exactly when it belongs to either set, no accession appears
twice across the buckets, and an accession whose version tag or sequence
payload differs lands in accession_version_changed — the priority branch
of line 260 — even when metadata fields also differ. -/
theorem calculate_update_summary_partition
    (last current : List NuccoreSequence)
    (hlast : (last.map (fun s => s.accession_number)).Nodup)
    (hcur : (current.map (fun s => s.accession_number)).Nodup) :
    (∀ a, a ∈ allBuckets (calculate_update_summary emptySummary last current) ↔
        (a ∈ last.map (fun s => s.accession_number) ∨
          a ∈ current.map (fun s => s.accession_number)))
    ∧ (allBuckets (calculate_update_summary emptySummary last current)).Nodup
    ∧ (∀ c ∈ current, ∀ inst, an_to last c.accession_number = some inst →
        (c.version ≠ inst.version ∨ c.dna_sequence ≠ inst.dna_sequence) →
        c.accession_number ∈
          (calculate_update_summary emptySummary last current).accession_version_changed) := by
  have hA : (calculate_update_summary emptySummary last current).added
      = (current.filter (addFlag last)).map (fun s => s.accession_number) := by
    rw [summary_added_eq]
    rfl
  have hD : (calculate_update_summary emptySummary last current).deleted
      = (last.filter (delFlag current)).map (fun s => s.accession_number) := by
    rw [summary_deleted_eq]
    rfl
  have hV : (calculate_update_summary emptySummary last current).accession_version_changed
      = (current.filter (vcFlag last)).map (fun s => s.accession_number) := by
    rw [summary_avc_eq]
    rfl
  have hM : (calculate_update_summary emptySummary last current).metadata_changed
      = (current.filter (mcFlag last)).map (fun s => s.accession_number) := by
    rw [summary_mc_eq]
    rfl
  have hN : (calculate_update_summary emptySummary last current).no_change
      = (current.filter (ncFlag last)).map (fun s => s.accession_number) := by
    rw [summary_nc_eq]
    rfl
  have hsub : ∀ p : NuccoreSequence → Bool,
      ∀ a ∈ (current.filter p).map (fun s => s.accession_number),
        a ∈ current.map (fun s => s.accession_number) :=
    fun p a ha => (filterMap_sublist current p).subset ha
  refine ⟨?_, ?_, ?_⟩
  · intro a
    unfold allBuckets
    rw [hA, hD, hV, hM, hN]
    simp only [List.mem_append]
    constructor
    · rintro (((((h | h) | h) | h) | h))
      · exact Or.inr (hsub _ a h)
      · exact Or.inl ((mem_deleted_iff last current a).mp h).1
      · exact Or.inr (hsub _ a h)
      · exact Or.inr (hsub _ a h)
      · exact Or.inr (hsub _ a h)
    · intro h
      by_cases hc : a ∈ current.map (fun s => s.accession_number)
      · obtain ⟨c, hcl, rfl⟩ := List.mem_map.mp hc
        have hex := flag_exhaustive last c
        simp only [Bool.or_eq_true] at hex
        rcases hex with ((hf | hf) | hf) | hf
        · exact Or.inl (Or.inl (Or.inl (Or.inl
            ((mem_filterMap_iff current _ _).mpr ⟨c, hcl, hf, rfl⟩))))
        · exact Or.inl (Or.inl (Or.inr
            ((mem_filterMap_iff current _ _).mpr ⟨c, hcl, hf, rfl⟩)))
        · exact Or.inl (Or.inr ((mem_filterMap_iff current _ _).mpr ⟨c, hcl, hf, rfl⟩))
        · exact Or.inr ((mem_filterMap_iff current _ _).mpr ⟨c, hcl, hf, rfl⟩)
      · rcases h with h | h
        · exact Or.inl (Or.inl (Or.inl (Or.inr
            ((mem_deleted_iff last current _).mpr ⟨h, hc⟩))))
        · exact absurd h hc
  · unfold allBuckets
    rw [hA, hD, hV, hM, hN]
    have hndA := List.Nodup.sublist (filterMap_sublist current (addFlag last)) hcur
    have hndV := List.Nodup.sublist (filterMap_sublist current (vcFlag last)) hcur
    have hndM := List.Nodup.sublist (filterMap_sublist current (mcFlag last)) hcur
    have hndN := List.Nodup.sublist (filterMap_sublist current (ncFlag last)) hcur
    have hndD := List.Nodup.sublist (filterMap_sublist last (delFlag current)) hlast
    have hdjD : ∀ p : NuccoreSequence → Bool,
        List.Disjoint ((last.filter (delFlag current)).map (fun s => s.accession_number))
          ((current.filter p).map (fun s => s.accession_number)) := by
      intro p a ha hb
      exact ((mem_deleted_iff last current a).mp ha).2 (hsub p a hb)
    have hdjD2 : ∀ p : NuccoreSequence → Bool,
        List.Disjoint ((current.filter p).map (fun s => s.accession_number))
          ((last.filter (delFlag current)).map (fun s => s.accession_number)) := by
      intro p a ha hb
      exact ((mem_deleted_iff last current a).mp hb).2 (hsub p a ha)
    have n1 := List.Nodup.append hndA hndD (hdjD2 (addFlag last))
    have n2 := List.Nodup.append n1 hndV (by
      rw [List.disjoint_append_left]
      exact ⟨disjoint_filterMap_excl hcur (fun c h => vcFlag_false_of_addFlag h),
        hdjD (vcFlag last)⟩)
    have n3 := List.Nodup.append n2 hndM (by
      rw [List.disjoint_append_left, List.disjoint_append_left]
      exact ⟨⟨disjoint_filterMap_excl hcur (fun c h => mcFlag_false_of_addFlag h),
        hdjD (mcFlag last)⟩,
        disjoint_filterMap_excl hcur (fun c h => mcFlag_false_of_vcFlag h)⟩)
    exact List.Nodup.append n3 hndN (by
      rw [List.disjoint_append_left, List.disjoint_append_left, List.disjoint_append_left]
      exact ⟨⟨⟨disjoint_filterMap_excl hcur (fun c h => ncFlag_false_of_addFlag h),
        hdjD (ncFlag last)⟩,
        disjoint_filterMap_excl hcur (fun c h => ncFlag_false_of_vcFlag h)⟩,
        disjoint_filterMap_excl hcur (fun c h => ncFlag_false_of_mcFlag h)⟩)
  · intro c hcl inst hinst hne
    rw [hV]
    refine (mem_filterMap_iff current _ _).mpr ⟨c, hcl, ?_, rfl⟩
    simp only [vcFlag, hinst, Bool.or_eq_true, bne_iff_ne]
    tauto

/-- C2 counterexample.  The five buckets are shared class attributes of
SequenceUpdateSummary, so a second diff in the same process starts from
the bucket contents the first call left behind: diffing the pair of sets
(empty, containing only recA) twice in a row returns added holding the
accession A1 twice, so the buckets of the second call do not partition the
union of the ids of its two argument sets, against the claim that every
accession appears in exactly one bucket and none appears twice. -/
theorem calculate_update_summary_shared_state_cex :
    (calculate_update_summary (calculate_update_summary emptySummary [] [recA]) []
        [recA]).added = ["A1", "A1"]
    ∧ ¬ (allBuckets (calculate_update_summary (calculate_update_summary emptySummary [] [recA])
        [] [recA])).Nodup := by
  constructor
  · rfl
  · decide

/-- Witness for C2: the partition theorem applied to two concrete
single-record sets with distinct accessions. -/
theorem calculate_update_summary_partition_witness :
    ([recA].map (fun s => s.accession_number)).Nodup
    ∧ ([recB].map (fun s => s.accession_number)).Nodup
    ∧ (allBuckets (calculate_update_summary emptySummary [recA] [recB])).Nodup :=
  ⟨by decide, by decide,
    (calculate_update_summary_partition [recA] [recB] (by decide) (by decide)).2.1⟩

/-- C3.  The version ladder of save_blastdb: for every previous published
snapshot and every update summary, a non-empty added, deleted or
accession_version_changed bucket yields the genbank bump to
(g+1, 0, 0); otherwise a non-empty metadata_changed bucket yields the
major bump (g, m+1, 0); otherwise the minor bump (g, m, n+1).  In
particular a summary with both added and metadata_changed non-empty takes
the genbank bump, never the metadata-only bump. -/
theorem version_policy_ladder (lp : BlastDb) (s : SequenceUpdateSummary) :
    (s.added ≠ [] ∨ s.deleted ≠ [] ∨ s.accession_version_changed ≠ [] →
      version_nums_for lp s = (lp.genbank_version + 1, 0, 0))
    ∧ (s.added = [] → s.deleted = [] → s.accession_version_changed = [] →
        s.metadata_changed ≠ [] →
        version_nums_for lp s = (lp.genbank_version, lp.major_version + 1, 0))
    ∧ (s.added = [] → s.deleted = [] → s.accession_version_changed = [] →
        s.metadata_changed = [] →
        version_nums_for lp s = (lp.genbank_version, lp.major_version, lp.minor_version + 1))
    ∧ (s.added ≠ [] → s.metadata_changed ≠ [] →
        version_nums_for lp s = (lp.genbank_version + 1, 0, 0)) := by
  refine ⟨?_, ?_, ?_, ?_⟩
  · intro h
    unfold version_nums_for
    split
    · rfl
    · next hcond =>
      exfalso
      apply hcond
      simp only [Bool.or_eq_true, decide_eq_true_eq, gt_iff_lt, List.length_pos]
      tauto
  · intro h1 h2 h3 h4
    unfold version_nums_for
    split
    · next hcond =>
      exfalso
      simp [h1, h2, h3] at hcond
    · split
      · rfl
      · next hmc =>
        exfalso
        apply hmc
        simp only [decide_eq_true_eq, gt_iff_lt, List.length_pos]
        exact h4
  · intro h1 h2 h3 h4
    unfold version_nums_for
    split
    · next hcond =>
      exfalso
      simp [h1, h2, h3] at hcond
    · split
      · next hmc =>
        exfalso
        simp [h4] at hmc
      · rfl
  · intro h1 h2
    unfold version_nums_for
    split
    · rfl
    · next hcond =>
      exfalso
      apply hcond
      simp only [Bool.or_eq_true, decide_eq_true_eq, gt_iff_lt, List.length_pos]
      tauto

/-- Witness for C3: the ladder applied to the concrete published version
one dot zero dot zero with concrete summaries for each branch, including
the precedence case where added and metadata_changed are both
non-empty. -/
theorem version_policy_ladder_witness :
    version_nums_for dbLockedEmpty
        ({ added := ["X1"], metadata_changed := ["Y1"] } : SequenceUpdateSummary) = (2, 0, 0)
    ∧ version_nums_for dbLockedEmpty
        ({ metadata_changed := ["Y1"] } : SequenceUpdateSummary) = (1, 1, 0)
    ∧ version_nums_for dbLockedEmpty (({} : SequenceUpdateSummary)) = (1, 0, 1) :=
  ⟨((version_policy_ladder dbLockedEmpty _).2.2.2 (by decide) (by decide)).trans (by decide),
    ((version_policy_ladder dbLockedEmpty _).2.1 rfl rfl rfl (by decide)).trans (by decide),
    ((version_policy_ladder dbLockedEmpty _).2.2.1 rfl rfl rfl rfl).trans (by decide)⟩

/-- C8 amended.  The version computed by the ladder is always strictly
greater than the previous version in the lexicographic order on
(genbank_version, major_version, minor_version); the componentwise
reading of monotonicity fails, see the counterexample. -/
theorem version_policy_lex_increase (lp : BlastDb) (s : SequenceUpdateSummary) :
    lp.genbank_version < (version_nums_for lp s).1
    ∨ (lp.genbank_version = (version_nums_for lp s).1
        ∧ (lp.major_version < (version_nums_for lp s).2.1
          ∨ (lp.major_version = (version_nums_for lp s).2.1
              ∧ lp.minor_version < (version_nums_for lp s).2.2))) := by
  unfold version_nums_for
  split
  · simp
  · split
    · simp
    · simp

/-- C8 counterexample.  From previous version one dot one dot zero, a
summary with a non-empty added bucket produces version two dot zero dot
zero: the transition is a lexicographic increase, but the major component
decreases from one to zero, so the claim that no component of the triple
ever decreases is false. -/
theorem version_policy_component_decrease_cex :
    version_nums_for dbPublishedOneOne summaryOnlyAdded = (2, 0, 0)
    ∧ (version_nums_for dbPublishedOneOne summaryOnlyAdded).2.1
        < dbPublishedOneOne.major_version := by
  constructor
  · decide
  · decide

lemma self_summary_buckets (l : List NuccoreSequence)
    (hnd : (l.map (fun s => s.accession_number)).Nodup) :
    (calculate_update_summary emptySummary l l).added = []
    ∧ (calculate_update_summary emptySummary l l).deleted = []
    ∧ (calculate_update_summary emptySummary l l).accession_version_changed = []
    ∧ (calculate_update_summary emptySummary l l).metadata_changed = [] := by
  refine ⟨?_, ?_, ?_, ?_⟩
  · rw [summary_added_eq]
    have he : l.filter (addFlag l) = [] :=
      List.filter_eq_nil_iff.mpr (fun c hc => by simp [addFlag, an_to_self hnd hc])
    rw [he]
    rfl
  · rw [summary_deleted_eq]
    have he : l.filter (delFlag l) = [] :=
      List.filter_eq_nil_iff.mpr (fun c hc => by simp [delFlag, an_to_self hnd hc])
    rw [he]
    rfl
  · rw [summary_avc_eq]
    have he : l.filter (vcFlag l) = [] :=
      List.filter_eq_nil_iff.mpr (fun c hc => by simp [vcFlag, an_to_self hnd hc])
    rw [he]
    rfl
  · rw [summary_mc_eq]
    have he : l.filter (mcFlag l) = [] :=
      List.filter_eq_nil_iff.mpr (fun c hc => by
        simp [mcFlag, an_to_self hnd hc, metadataDiffers])
    rw [he]
    rfl

/-- C1 amended.  save_blastdb performs no check of the locked flag:
sealing an already-locked snapshot that is itself the latest published
version of its library is not rejected with any lock error; it recomputes
the version from the self-diff — whose buckets are all empty on a fresh
process — and re-locks the snapshot with its minor version incremented,
so the version triple of a locked snapshot changes. -/
theorem save_blastdb_locked_reseals (dbs : List BlastDb) (obj : BlastDb) (ok : Bool)
    (hlock : obj.locked = true) (hlatest : latest dbs = some obj)
    (hnd : (obj.records.map (fun s => s.accession_number)).Nodup) :
    (save_blastdb dbs obj emptySummary ok true).locked = true
    ∧ (save_blastdb dbs obj emptySummary ok true).genbank_version = obj.genbank_version
    ∧ (save_blastdb dbs obj emptySummary ok true).major_version = obj.major_version
    ∧ (save_blastdb dbs obj emptySummary ok true).minor_version = obj.minor_version + 1 := by
  obtain ⟨ha, hd, hv, hm⟩ := self_summary_buckets obj.records hnd
  have hvn : version_nums_for obj (calculate_update_summary emptySummary obj.records obj.records)
      = (obj.genbank_version, obj.major_version, obj.minor_version + 1) := by
    simp [version_nums_for, ha, hd, hv, hm]
  simp only [save_blastdb, hlatest, if_true]
  rw [hvn]
  simp

/-- C1 counterexample.  Sealing the concrete already-locked snapshot at
version one dot zero dot zero again does not fail: no lock error exists on
the save_blastdb path, the snapshot stays locked, and its minor version
changes from zero to one, so the state is mutated rather than preserved. -/
theorem save_blastdb_locked_cex :
    dbLockedEmpty.locked = true
    ∧ (save_blastdb [dbLockedEmpty] dbLockedEmpty emptySummary true true).minor_version = 1
    ∧ dbLockedEmpty.minor_version = 0
    ∧ (save_blastdb [dbLockedEmpty] dbLockedEmpty emptySummary true true).locked = true := by
  refine ⟨rfl, ?_, rfl, ?_⟩
  · decide
  · decide

/-- Witness for C1: the re-seal theorem applied to the concrete locked
snapshot that is the only (hence latest) published version of its
library. -/
theorem save_blastdb_locked_reseals_witness :
    dbLockedEmpty.locked = true
    ∧ latest [dbLockedEmpty] = some dbLockedEmpty
    ∧ (save_blastdb [dbLockedEmpty] dbLockedEmpty emptySummary true true).minor_version
        = dbLockedEmpty.minor_version + 1 :=
  ⟨rfl, by decide,
    (save_blastdb_locked_reseals [dbLockedEmpty] dbLockedEmpty true rfl (by decide)
      (by decide)).2.2.2⟩

/-- C6 amended.  save_blastdb discards the exit status of the external
makeblastdb invocation: the outcome of a seal is identical whether the
build tool succeeds or fails, no build error is raised anywhere on the
path, and the snapshot is locked and versioned regardless of the exit
status. -/
theorem save_blastdb_ignores_build_exit (dbs : List BlastDb) (obj : BlastDb)
    (amb : SequenceUpdateSummary) :
    save_blastdb dbs obj amb false true = save_blastdb dbs obj amb true true
    ∧ (save_blastdb dbs obj amb false true).locked = true := by
  refine ⟨rfl, ?_⟩
  simp only [save_blastdb, if_true]

/-- C6 counterexample.  Sealing the concrete unlocked snapshot while the
build tool fails (exit status false) still locks it and assigns version
one dot zero dot zero: the snapshot does not remain unlocked and the seal
does not abort, so the claimed build-failure abort behaviour is absent
from the code. -/
theorem save_blastdb_build_failure_cex :
    dbUnlockedEmpty.locked = false
    ∧ (save_blastdb [] dbUnlockedEmpty emptySummary false true).locked = true
    ∧ (save_blastdb [] dbUnlockedEmpty emptySummary false true).genbank_version = 1 := by
  refine ⟨rfl, ?_, ?_⟩
  · decide
  · decide

/-- C5 amended.  Of the four collection mutator operations, the three
implemented with a lock guard — delete, update and add — fail with
DatabaseLocked on a locked snapshot (and, failing, return no mutated
state); filter_sequences_in_database performs no lock check at all: its
result is identical on the locked and on the unlocked copy of the same
snapshot, so it removes violating records even from a locked snapshot. -/
theorem mutators_locked_guard (db : BlastDb) (hlock : db.locked = true)
    (nums desired addNums : List String) (term : Option String)
    (fetch : List String → Option String → Except FetchError (List NuccoreSequence))
    (minL maxL maxAmb : Int) (bl : List String) (rt : Bool) :
    delete_sequences_in_database db nums = .error .databaseLocked
    ∧ update_sequences_in_database fetch db desired = .error .databaseLocked
    ∧ add_sequences_to_database fetch db addNums term minL maxL maxAmb bl rt
        = .error .databaseLocked
    ∧ (filter_sequences_in_database db minL maxL maxAmb bl rt).2
        = (filter_sequences_in_database { db with locked := false } minL maxL maxAmb bl rt).2 := by
  refine ⟨?_, ?_, ?_, rfl⟩
  · simp [delete_sequences_in_database, hlock]
  · simp [update_sequences_in_database, hlock]
  · simp [add_sequences_to_database, hlock]

/-- C5 counterexample.  On the concrete locked snapshot holding one
record of length five, filterRecords with a minimum length of ten does
not fail with any lock error: it deletes the record and returns it as a
violation, so the claim that every mutator fails with SnapshotLocked on a
locked snapshot and removes nothing is false for filterRecords. -/
theorem filter_on_locked_cex :
    dbLockedShort.locked = true
    ∧ (filter_sequences_in_database dbLockedShort 10 (-1) (-1) [] false).2 = [recShort]
    ∧ (filter_sequences_in_database dbLockedShort 10 (-1) (-1) [] false).1.records = [] := by
  refine ⟨rfl, ?_, ?_⟩
  · decide
  · decide

/-- Witness for C5: the guard theorem applied to the concrete locked
snapshot and concrete arguments. -/
theorem mutators_locked_guard_witness :
    dbLockedShort.locked = true
    ∧ delete_sequences_in_database dbLockedShort ["S1"] = .error .databaseLocked
    ∧ update_sequences_in_database (fun _ _ => .ok []) dbLockedShort []
        = .error .databaseLocked :=
  ⟨rfl,
    (mutators_locked_guard dbLockedShort rfl ["S1"] [] [] none (fun _ _ => .ok [])
      (-1) (-1) (-1) [] false).1,
    (mutators_locked_guard dbLockedShort rfl ["S1"] [] [] none (fun _ _ => .ok [])
      (-1) (-1) (-1) [] false).2.1⟩

lemma mem_qsUnion (a b : List NuccoreSequence) (r : NuccoreSequence) :
    r ∈ qsUnion a b ↔ r ∈ a ∨ r ∈ b := by
  simp only [qsUnion, List.mem_append, List.mem_filter, Bool.not_eq_true', decide_eq_false_iff_not]
  tauto

/-- C4 amended.  A record of an unlocked snapshot is removed by
filter_sequences_in_database exactly when it matches the blacklist by
accession number or version tag, or an active minimum length bound
exceeds its sequence length, or an active maximum length bound is
exceeded by it, or an active ambiguous-base bound is exceeded by its
case-insensitive count of the symbol N; a bound is active exactly when it
is greater than minus one, and the conditions combine by logical OR.  The
require_taxonomy condition of the original claim is absent: the function
accepts the flag but never reads it, see the counterexample. -/
theorem filter_removes_iff (db : BlastDb) (minL maxL maxAmb : Int)
    (bl : List String) (rt : Bool) (r : NuccoreSequence)
    (hunlocked : db.locked = false) (hr : r ∈ db.records) :
    r ∈ (filter_sequences_in_database db minL maxL maxAmb bl rt).2 ↔
      ((r.accession_number ∈ bl ∨ r.version ∈ bl)
      ∨ (-1 < minL ∧ (r.dna_sequence.length : Int) < minL)
      ∨ (-1 < maxL ∧ (r.dna_sequence.length : Int) > maxL)
      ∨ (-1 < maxAmb ∧ (ambiguousBases r.dna_sequence : Int) > maxAmb)) := by
  unfold filter_sequences_in_database
  by_cases h1 : minL > -1 <;> by_cases h2 : maxL > -1 <;> by_cases h3 : maxAmb > -1 <;>
    simp only [h1, h2, h3, if_true, if_false, gt_iff_lt, not_lt] <;>
    simp [mem_qsUnion, List.mem_filter, hr, List.contains] <;>
    constructor <;> intro h <;> tauto

/-- C4 counterexample.  The concrete unlocked snapshot holds one record
with every taxonomic rank field unset; filtering with require_taxonomy set
and every other bound inactive removes nothing, against the claim that a
record missing a taxonomic rank field is removed when requireTaxonomy is
set. -/
theorem filter_ignores_taxonomy_cex :
    recNoTax.taxon_species = none
    ∧ dbNoTax.locked = false
    ∧ recNoTax ∈ dbNoTax.records
    ∧ (filter_sequences_in_database dbNoTax (-1) (-1) (-1) [] true).2 = [] := by
  refine ⟨rfl, rfl, ?_, ?_⟩
  · decide
  · decide

/-- Witness for C4: the removal characterization applied to the concrete
unlocked snapshot whose record has length four, with a minimum length
bound of ten, concluding that the record is removed. -/
theorem filter_removes_iff_witness :
    dbUnlockedEmpty.locked = false
    ∧ recA ∈ dbUnlockedEmpty.records
    ∧ recA ∈ (filter_sequences_in_database dbUnlockedEmpty 10 (-1) (-1) [] false).2 :=
  ⟨rfl, by decide,
    (filter_removes_iff dbUnlockedEmpty 10 (-1) (-1) [] false recA rfl (by decide)).mpr
      (Or.inr (Or.inl ⟨by decide, by decide⟩))⟩

/-- C9 amended.  For a raw record whose source feature carries no explicit
type-material qualifier (so the extracted value is the empty string): when
the notes text contains paratype or holotype case-insensitively, the
type-material value is the notes text, with its first six characters
removed exactly when the lowercased notes start with the marker type colon
space and the notes are longer than six characters (the prefix test is
case-insensitive, not literal); when the notes lack both keywords the
type-material value is the entire notes text, not the empty string; only
when there is no notes qualifier at all is the value empty. -/
theorem type_material_note_fallback (ns : String) :
    (noteHasTypeKeyword ns = true → typeColonAtHead ns = true → 6 < ns.length →
      apply_type_material_note "" (some ns) = String.mk (ns.data.drop 6))
    ∧ (noteHasTypeKeyword ns = true → typeColonAtHead ns = false →
      apply_type_material_note "" (some ns) = ns)
    ∧ (noteHasTypeKeyword ns = false → apply_type_material_note "" (some ns) = ns)
    ∧ apply_type_material_note "" none = "" := by
  refine ⟨?_, ?_, ?_, rfl⟩
  · intro h1 h2 h3
    simp [apply_type_material_note, h1, h2, h3]
  · intro h1 h2
    simp [apply_type_material_note, h1, h2]
  · intro h1
    simp [apply_type_material_note, h1]

/-- C9 counterexample.  Notes that lack the keywords produce themselves as
the type-material value, not the empty string the claim requires; and
notes opening with a capitalized marker are stripped although the literal
lowercase prefix the claim describes is absent. -/
theorem type_material_note_cex :
    apply_type_material_note "" (some "specimen notes") = "specimen notes"
    ∧ apply_type_material_note "" (some "Type: holotype of X") = "holotype of X" := by
  refine ⟨?_, ?_⟩
  · decide
  · decide

/-- Witness for C9: the fallback theorem applied to concrete notes
carrying the keyword, the marker and a length above six. -/
theorem type_material_note_fallback_witness :
    noteHasTypeKeyword "type: paratype of Y" = true
    ∧ typeColonAtHead "type: paratype of Y" = true
    ∧ 6 < ("type: paratype of Y").length
    ∧ apply_type_material_note "" (some "type: paratype of Y") = "paratype of Y" :=
  ⟨by decide, by decide, by decide,
    ((type_material_note_fallback "type: paratype of Y").1 (by decide) (by decide)
      (by decide)).trans (by decide)⟩

/-- C7.  Evaluation of retrieve_gb at the failing input: a list of 1501
pairwise distinct accessions fails the ceiling check of line 222 with
AccessionLimitExceeded before any of the three network oracles is
consulted — the result is the same for every oracle and every search
term — but the exception payload stores the requested accession list
itself in curr_accessions (line 223), not the requested count the claim
and the field declaration (curr_accessions of type int) describe. -/
theorem retrieve_gb_limit_guard :
    bigAccessionList.Nodup
    ∧ bigAccessionList.length = 1501
    ∧ ∀ (esearchCount : String → Except FetchError Nat)
        (fetchPage : Nat → Nat → Except FetchError (List NuccoreSequence))
        (fetchBatch : List String → Except FetchError (List NuccoreSequence))
        (term : Option String),
        retrieve_gb esearchCount fetchPage fetchBatch bigAccessionList term
          = .error (.accessionLimitExceeded (.inr bigAccessionList) 1500) := by
  have hlen : bigAccessionList.length = 1501 := by
    simp [bigAccessionList]
  refine ⟨?_, hlen, ?_⟩
  · unfold bigAccessionList
    refine List.Nodup.map ?_ (List.nodup_range 1501)
    intro i j hij
    have hdata : List.replicate i 'a' = List.replicate j 'a' := congrArg String.data hij
    have := congrArg List.length hdata
    simpa using this
  · intro ec fp fb term
    unfold retrieve_gb
    rw [hlen]
    simp [MAX_ACCESSIONS]

lemma addStep_cases (minL maxL maxAmb : Int) (bl : List String) (rt : Bool)
    (st : List String × List NuccoreSequence) (d : NuccoreSequence) :
    addStep minL maxL maxAmb bl rt st d = st
    ∨ (st.1.contains d.accession_number = false
        ∧ addStep minL maxL maxAmb bl rt st d
            = (st.1 ++ [d.accession_number], st.2 ++ [d])) := by
  unfold addStep
  split_ifs with h1 h2 h3 h4 h5 h6
  · exact Or.inl rfl
  · exact Or.inl rfl
  · exact Or.inl rfl
  · exact Or.inl rfl
  · exact Or.inl rfl
  · exact Or.inl rfl
  · refine Or.inr ⟨?_, rfl⟩
    simpa using h1

lemma addStep_fold_new_accessions (minL maxL maxAmb : Int) (bl : List String) (rt : Bool)
    (gdata : List NuccoreSequence) :
    ∀ (ex ex0 : List String) (tc : List NuccoreSequence),
      (∀ a ∈ ex0, a ∈ ex) →
      (∀ r ∈ tc, r.accession_number ∉ ex0) →
      ∀ r ∈ (gdata.foldl (addStep minL maxL maxAmb bl rt) (ex, tc)).2,
        r.accession_number ∉ ex0 := by
  induction gdata with
  | nil =>
    intro ex ex0 tc _ hinv r hr
    exact hinv r hr
  | cons d ds ih =>
    intro ex ex0 tc hsub hinv r hr
    rw [List.foldl_cons] at hr
    rcases addStep_cases minL maxL maxAmb bl rt (ex, tc) d with heq | ⟨hcon, heq⟩
    · rw [heq] at hr
      exact ih ex ex0 tc hsub hinv r hr
    · rw [heq] at hr
      refine ih (ex ++ [d.accession_number]) ex0 (tc ++ [d])
        (fun a ha => List.mem_append.mpr (Or.inl (hsub a ha))) ?_ r hr
      intro r' hr'
      rcases List.mem_append.mp hr' with h | h
      · exact hinv r' h
      · have : r' = d := by simpa using h
        subst this
        intro hmem
        have : r'.accession_number ∈ ex := hsub _ hmem
        simp only [List.contains, List.elem_eq_mem, decide_eq_false_iff_not] at hcon
        exact hcon this

/-- C10.  On the search-term path — an empty explicit accession list —
add_sequences_to_database never fails with AccessionsAlreadyExist, for
every fetch oracle (the conflict check of lines 469-473 inspects only the
explicitly requested numbers and runs before retrieve_gb is called); and
on success the database gains exactly the created records, every one of
which has an accession number that was not already present in the
snapshot: a fetched record duplicating an existing accession is silently
skipped by the continue of line 492, neither inserted nor reported. -/
theorem add_search_term_skips_existing (db : BlastDb) (term : Option String)
    (fetch : List String → Option String → Except FetchError (List NuccoreSequence))
    (minL maxL maxAmb : Int) (bl : List String) (rt : Bool)
    (hunlocked : db.locked = false) :
    (∀ confl, add_sequences_to_database fetch db [] term minL maxL maxAmb bl rt
        ≠ .error (.accessionsAlreadyExist confl))
    ∧ (∀ db2 created, add_sequences_to_database fetch db [] term minL maxL maxAmb bl rt
        = .ok (db2, created) →
        db2.records = db.records ++ created
        ∧ ∀ r ∈ created,
            r.accession_number ∉ db.records.map (fun s => s.accession_number)) := by
  have hed : List.eraseDups ([] : List String) = [] := rfl
  rcases term with _ | t
  · constructor
    · intro confl
      simp [add_sequences_to_database, hunlocked]
    · intro db2 created h
      simp only [add_sequences_to_database, hunlocked, Bool.false_eq_true, if_false,
        List.length_nil, Option.isNone_none, Bool.and_true] at h
      simp only [beq_self_eq_true, if_true, Except.ok.injEq, Prod.mk.injEq] at h
      obtain ⟨hdb2, hcr⟩ := h
      subst hdb2
      subst hcr
      exact ⟨by simp, by simp⟩
  · constructor
    · intro confl hcontra
      simp only [add_sequences_to_database, hunlocked, Bool.false_eq_true, if_false,
        List.length_nil, Option.isNone_some, Bool.and_false, hed, List.filter_nil,
        lt_self_iff_false] at hcontra
      rcases hf : fetch [] (some t) with e | gb <;> simp only [hf] at hcontra
      · cases hcontra
      · cases hcontra
    · intro db2 created h
      simp only [add_sequences_to_database, hunlocked, Bool.false_eq_true, if_false,
        List.length_nil, Option.isNone_some, Bool.and_false, hed, List.filter_nil,
        lt_self_iff_false] at h
      rcases hf : fetch [] (some t) with e | gb <;> simp only [hf] at h
      · cases h
      · simp only [Except.ok.injEq, Prod.mk.injEq] at h
        obtain ⟨hdb2, hcr⟩ := h
        subst hdb2
        subst hcr
        refine ⟨rfl, ?_⟩
        intro r hr
        exact addStep_fold_new_accessions minL maxL maxAmb bl rt gb
          (db.records.map (fun s => s.accession_number))
          (db.records.map (fun s => s.accession_number)) []
          (fun a ha => ha) (fun r' hr' => absurd hr' (List.not_mem_nil r')) r hr

/-- Witness for C10: the theorem applied to the concrete unlocked snapshot
already holding the record with accession A1, a concrete search term and a
fetch oracle returning that same record together with a new one; the
concrete conflict error is never produced, and the newly created record
has an accession absent from the snapshot. -/
theorem add_search_term_skips_existing_witness :
    dbUnlockedEmpty.locked = false
    ∧ add_sequences_to_database (fun _ _ => .ok [recA, recB]) dbUnlockedEmpty [] (some "sea")
        (-1) (-1) (-1) [] false ≠ .error (.accessionsAlreadyExist ["A1"])
    ∧ recB.accession_number ∉ dbUnlockedEmpty.records.map (fun s => s.accession_number) :=
  ⟨rfl,
    (add_search_term_skips_existing dbUnlockedEmpty (some "sea") (fun _ _ => .ok [recA, recB])
      (-1) (-1) (-1) [] false rfl).1 ["A1"],
    ((add_search_term_skips_existing dbUnlockedEmpty (some "sea") (fun _ _ => .ok [recA, recB])
      (-1) (-1) (-1) [] false rfl).2 { dbUnlockedEmpty with records := [recA, recB] } [recB]
      (by rfl)).2 recB (by decide)⟩

end Barrel
